import Mathlib

/-!
Verification of the Workspace reconciliation core of provider-terraform.

The repository snapshot contains only the bootstrap entry point
(`cmd/provider/main.go`) and the README; the reconciliation core
(`internal/controller/...`) is not part of the snapshot.  Every component
below that belongs to the missing core is therefore modelled from the
specification, each with a doc comment naming the missing part.  The
constants that do appear in `cmd/provider/main.go` (for example the
default process timeout of 20 minutes) are embedded from that file.
-/

namespace ProviderTerraform

/-- Modelled from the spec: the `WorkspaceLockManager` status of a single
workspace lock (missing source: `internal/controller/workspace`).  A lock
is `free`, `held` by an outstanding guard, or `stranded` after the holding
process was hard-killed on timeout; a stranded lock is never auto-released. -/
inductive LockStatus
  | free
  | held
  | stranded
deriving DecidableEq, Repr

/-- A lock-manager state: association list from workspaceID to status;
an absent entry means the lock is free. -/
abbrev LockState := List (String × LockStatus)

/-- The status of a workspaceID in a lock-manager state. -/
def statusOf (s : LockState) (id : String) : LockStatus :=
  (s.lookup id).getD .free

/-- The result of an acquire call: a guard, or Busy. -/
inductive AcqResult
  | guard
  | busy
deriving DecidableEq, Repr

/-- Modelled from the spec: `acquire(workspaceID) → guard | Busy`
(missing source: the workspace lock manager).  A guard is granted only
when the lock is free; a held or stranded lock yields Busy. -/
def acquire (id : String) (s : LockState) : AcqResult × LockState :=
  match statusOf s id with
  | .free => (.guard, (id, .held) :: s)
  | _ => (.busy, s)

/-- Modelled from the spec: releasing a guard on a normal exit path.
Only a held lock is released; a stranded lock is left alone because the
guard that would release it died with the killed process. -/
def release (id : String) (s : LockState) : LockState :=
  match statusOf s id with
  | .held => (id, .free) :: s
  | _ => s

/-- Modelled from the spec: the effect of a hard kill on timeout while the
lock is held: the lock becomes stranded and is not auto-released. -/
def hardKill (id : String) (s : LockState) : LockState :=
  match statusOf s id with
  | .held => (id, .stranded) :: s
  | _ => s

/-- Modelled from the spec: manual clearing of a (possibly stranded) lock
by an operator. -/
def clearLock (id : String) (s : LockState) : LockState :=
  (id, .free) :: s

/-- The operations observable on the lock manager. -/
inductive LockOp
  | opAcquire (id : String)
  | opRelease (id : String)
  | opKill (id : String)
  | opClear (id : String)
deriving DecidableEq, Repr

/-- Apply one lock-manager operation to the state. -/
def applyOp : LockOp → LockState → LockState
  | .opAcquire id, s => (acquire id s).2
  | .opRelease id, s => release id s
  | .opKill id, s => hardKill id s
  | .opClear id, s => clearLock id s

/-- Run a sequence of lock-manager operations. -/
def runOps : List LockOp → LockState → LockState
  | [], s => s
  | op :: rest, s => runOps rest (applyOp op s)

theorem statusOf_cons_self (s : LockState) (id : String) (st : LockStatus) :
    statusOf ((id, st) :: s) id = st := by
  simp [statusOf, List.lookup]

theorem statusOf_cons_ne (s : LockState) (id id' : String) (st : LockStatus)
    (h : id' ≠ id) : statusOf ((id', st) :: s) id = statusOf s id := by
  have hbeq : (id == id') = false := beq_eq_false_iff_ne.mpr (Ne.symm h)
  simp [statusOf, List.lookup, hbeq]

theorem stranded_applyOp (s : LockState) (id : String) (op : LockOp)
    (hst : statusOf s id = .stranded) (hne : op ≠ .opClear id) :
    statusOf (applyOp op s) id = .stranded := by
  cases op with
  | opAcquire id' =>
    by_cases h : id' = id
    · subst h
      simp [applyOp, acquire, hst]
    · simp only [applyOp, acquire]
      cases hfree : statusOf s id' with
      | free => rw [statusOf_cons_ne s id id' .held h]; exact hst
      | held => exact hst
      | stranded => exact hst
  | opRelease id' =>
    by_cases h : id' = id
    · subst h
      simp [applyOp, release, hst]
    · simp only [applyOp, release]
      cases hrel : statusOf s id' with
      | held => rw [statusOf_cons_ne s id id' .free h]; exact hst
      | free => exact hst
      | stranded => exact hst
  | opKill id' =>
    by_cases h : id' = id
    · subst h
      simp [applyOp, hardKill, hst]
    · simp only [applyOp, hardKill]
      cases hk : statusOf s id' with
      | held => rw [statusOf_cons_ne s id id' .stranded h]; exact hst
      | free => exact hst
      | stranded => exact hst
  | opClear id' =>
    have h : id' ≠ id := fun he => hne (by rw [he])
    simp only [applyOp, clearLock]
    rw [statusOf_cons_ne s id id' .free h]
    exact hst

theorem stranded_runOps (ops : List LockOp) (s : LockState) (id : String)
    (hst : statusOf s id = .stranded) (hnoclr : LockOp.opClear id ∉ ops) :
    statusOf (runOps ops s) id = .stranded := by
  induction ops generalizing s with
  | nil => exact hst
  | cons op rest ih =>
    have hop : op ≠ .opClear id := fun he => hnoclr (by rw [he]; exact List.mem_cons_self _ _)
    have hrest : LockOp.opClear id ∉ rest := fun hm => hnoclr (List.mem_cons_of_mem _ hm)
    exact ih (applyOp op s) (stranded_applyOp s id op hst hop) hrest

/-- C2: for every workspaceID, at most one lock guard is outstanding at any
time: of two racing acquire calls for the same workspaceID (modelled as the
two possible serializations, which coincide because the calls are
identical), at most one returns a guard, and when the lock is free exactly
one returns a guard while the other returns Busy; this is independent of
which reconcile issued each call. -/
theorem c2_lock_mutual_exclusion (s : LockState) (id : String) :
    (acquire id (acquire id s).2).1 = .busy ∧
    (statusOf s id = .free →
      (acquire id s).1 = .guard ∧ (acquire id (acquire id s).2).1 = .busy) := by
  constructor
  · cases h : statusOf s id with
    | free =>
      have h2 : (acquire id s).2 = (id, .held) :: s := by simp [acquire, h]
      rw [h2]
      simp [acquire, statusOf_cons_self]
    | held =>
      have h2 : (acquire id s).2 = s := by simp [acquire, h]
      rw [h2]
      simp [acquire, h]
    | stranded =>
      have h2 : (acquire id s).2 = s := by simp [acquire, h]
      rw [h2]
      simp [acquire, h]
  · intro hfree
    refine ⟨by simp [acquire, hfree], ?_⟩
    have h2 : (acquire id s).2 = (id, .held) :: s := by simp [acquire, hfree]
    rw [h2]
    simp [acquire, statusOf_cons_self]

/-- Witness for C2 at a concrete state: the empty lock state, workspace
"coolbucket": the first racing acquire gets the guard, the second Busy. -/
theorem c2_lock_mutual_exclusion_witness :
    (acquire "coolbucket" (acquire "coolbucket" ([] : LockState)).2).1 = .busy ∧
    (statusOf ([] : LockState) "coolbucket" = .free →
      (acquire "coolbucket" ([] : LockState)).1 = .guard ∧
      (acquire "coolbucket" (acquire "coolbucket" ([] : LockState)).2).1 = .busy) :=
  c2_lock_mutual_exclusion ([] : LockState) "coolbucket"

/-- C8: after a process holding the workspace lock is hard-killed on
timeout, the lock manager never auto-releases the lock: whatever sequence
of acquire, release and kill operations follows, as long as no manual
clear for that workspaceID occurs the lock stays stranded and every
subsequent acquire call for it returns Busy. -/
theorem c8_stranded_lock_stays_busy (s : LockState) (id : String)
    (hheld : statusOf s id = .held) (ops : List LockOp)
    (hnoclr : LockOp.opClear id ∉ ops) :
    statusOf (runOps ops (hardKill id s)) id = .stranded ∧
    (acquire id (runOps ops (hardKill id s))).1 = .busy := by
  have hkill : statusOf (hardKill id s) id = .stranded := by
    simp [hardKill, hheld, statusOf_cons_self]
  have hrun := stranded_runOps ops (hardKill id s) id hkill hnoclr
  exact ⟨hrun, by simp [acquire, hrun]⟩

/-- Witness for C8: the lock of workspace "coolbucket" is held, the
process is hard-killed, then another workspace's reconcile acquires and
releases its own lock and a fresh acquire for "coolbucket" is attempted:
the stranded lock still answers Busy. -/
theorem c8_stranded_lock_stays_busy_witness :
    statusOf (runOps [LockOp.opAcquire "other", LockOp.opRelease "other",
        LockOp.opAcquire "coolbucket"]
      (hardKill "coolbucket" [("coolbucket", LockStatus.held)])) "coolbucket" = .stranded ∧
    (acquire "coolbucket" (runOps [LockOp.opAcquire "other", LockOp.opRelease "other",
        LockOp.opAcquire "coolbucket"]
      (hardKill "coolbucket" [("coolbucket", LockStatus.held)]))).1 = .busy :=
  c8_stranded_lock_stays_busy [("coolbucket", LockStatus.held)] "coolbucket"
    (by decide)
    [LockOp.opAcquire "other", LockOp.opRelease "other", LockOp.opAcquire "coolbucket"]
    (by decide)

/-- A single variable assignment, `key = value`. -/
structure Var where
  key : String
  value : String
deriving DecidableEq, Repr

/-- The kind of source a var file is loaded from. -/
inductive VarFileSource
  | literalSrc
  | configMapKey
  | secretKey
deriving DecidableEq, Repr

/-- A var-file declaration: a literal payload or a reference
(namespace, name, key) into a config object or secret object. -/
structure VarFileRef where
  source : VarFileSource
  literalPairs : List Var
  ref : String × String × String
deriving DecidableEq, Repr

/-- The cluster objects visible at reconcile time: config-map data and
secret data, keyed by (namespace, name, key); the value is the parsed
key/value content of that entry.  An absent entry models a missing object
or key. -/
structure Env where
  configData : List ((String × String × String) × List Var)
  secretData : List ((String × String × String) × List Var)
deriving Repr

/-- Errors of the reconciliation core, per the spec's taxonomy. -/
inductive Err
  | busy
  | resolutionError
  | killedErr
  | spawnErr
  | applyFailure
  | destroyFailure
  | parseErr
deriving DecidableEq, Repr

/-- The desired-spec side of a Workspace resource. -/
inductive SourceMode
  | inlineMode
  | remoteMode
deriving DecidableEq, Repr

/-- The Workspace resource spec: identity, source mode, module payload
(literal text or fetch URL), ordered literal vars, ordered var files, and
the connection-secret destination (namespace, name). -/
structure Workspace where
  externalName : String
  source : SourceMode
  moduleSrc : String
  vars : List Var
  varFiles : List VarFileRef
  connRef : String × String
deriving DecidableEq, Repr

/-- Modelled from the spec: resolution of one var file by the
`VariableLoader` (missing source: the workspace controller's variable
handling).  A literal var file yields its pairs; a reference-kind var
file reads the named key out of the referenced config object or secret
object at reconcile time and fails with ResolutionError if the object or
key is absent. -/
def resolveVarFile (env : Env) (vf : VarFileRef) : Except Err (List Var) :=
  match vf.source with
  | .literalSrc => .ok vf.literalPairs
  | .configMapKey =>
    match env.configData.lookup vf.ref with
    | some pairs => .ok pairs
    | none => .error .resolutionError
  | .secretKey =>
    match env.secretData.lookup vf.ref with
    | some pairs => .ok pairs
    | none => .error .resolutionError

/-- Keep only the first occurrence of each key not already in `seen`,
preserving order. -/
def dedupFirstAux (seen : List String) : List Var → List Var
  | [] => []
  | v :: rest =>
    if v.key ∈ seen then dedupFirstAux seen rest
    else v :: dedupFirstAux (v.key :: seen) rest

/-- Keep only the first occurrence of each key, preserving order. -/
def dedupFirst (l : List Var) : List Var := dedupFirstAux [] l

/-- Resolve every var file in declaration order, stopping at the first
failure. -/
def resolveAll (env : Env) : List VarFileRef → Except Err (List (List Var))
  | [] => .ok []
  | vf :: rest =>
    match resolveVarFile env vf with
    | .error e => .error e
    | .ok pairs =>
      match resolveAll env rest with
      | .error e => .error e
      | .ok restPairs => .ok (pairs :: restPairs)

/-- Modelled from the spec: `VariableLoader.load(workspace)` (missing
source: the workspace controller's variable handling).  Literal vars come
first, then the entries of each var file in declaration order; duplicate
keys are collapsed so that the first occurrence wins. -/
def load (ws : Workspace) (env : Env) : Except Err (List Var) :=
  match resolveAll env ws.varFiles with
  | .ok fileVars => .ok (dedupFirst (ws.vars ++ fileVars.flatten))
  | .error e => .error e

/-- First-match lookup of a key in an ordered variable list. -/
def lookupVar (k : String) : List Var → Option String
  | [] => none
  | v :: rest => if v.key = k then some v.value else lookupVar k rest

theorem dedupFirstAux_sublist (l : List Var) (seen : List String) :
    (dedupFirstAux seen l).Sublist l := by
  induction l generalizing seen with
  | nil => exact List.Sublist.slnil
  | cons v rest ih =>
    by_cases hv : v.key ∈ seen
    · simp only [dedupFirstAux, if_pos hv]
      exact (ih seen).cons v
    · simp only [dedupFirstAux, if_neg hv]
      exact (ih (v.key :: seen)).cons₂ v

theorem dedupFirst_sublist (l : List Var) : (dedupFirst l).Sublist l :=
  dedupFirstAux_sublist l []

theorem lookupVar_dedupFirstAux (k : String) (l : List Var) (seen : List String)
    (h : k ∉ seen) :
    lookupVar k (dedupFirstAux seen l) = lookupVar k l := by
  induction l generalizing seen with
  | nil => rfl
  | cons v rest ih =>
    by_cases hv : v.key ∈ seen
    · have hnk : ¬ v.key = k := fun he => h (he ▸ hv)
      simp only [dedupFirstAux, if_pos hv, lookupVar, if_neg hnk]
      exact ih seen h
    · by_cases hk : v.key = k
      · simp only [dedupFirstAux, if_neg hv, lookupVar, if_pos hk]
      · simp only [dedupFirstAux, if_neg hv, lookupVar, if_neg hk]
        refine ih (v.key :: seen) ?_
        intro hm
        rcases List.mem_cons.mp hm with h1 | h2
        · exact hk h1.symm
        · exact h h2

theorem lookupVar_dedupFirst (k : String) (l : List Var) :
    lookupVar k (dedupFirst l) = lookupVar k l :=
  lookupVar_dedupFirstAux k l [] (List.not_mem_nil k)

/-- An example workspace: one literal var `a = 1` and one literal var file
declaring `a = 2` and `b = 3`, so the key `a` is declared twice. -/
def wsExample : Workspace :=
  ⟨"coolbucket", .inlineMode, "module-a",
    [⟨"a", "1"⟩],
    [⟨.literalSrc, [⟨"a", "2"⟩, ⟨"b", "3"⟩], ("", "", "")⟩],
    ("default", "conn")⟩

/-- An environment with no config objects and no secret objects. -/
def envEmpty : Env := ⟨[], []⟩

/-- C10: for every workspace, `VariableLoader.load` returns the literal
vars first, followed by var-file entries in declaration order (the result
is an order-preserving sublist of literal vars ++ resolved var-file
entries), and when the same key occurs more than once the first
occurrence wins: looking any key up in the result gives the value of its
first declaration, so a later declaration never overrides an earlier one. -/
theorem c10_load_order_first_wins (ws : Workspace) (env : Env) (l : List Var)
    (h : load ws env = .ok l) :
    ∃ fileVars, resolveAll env ws.varFiles = .ok fileVars ∧
      l = dedupFirst (ws.vars ++ fileVars.flatten) ∧
      l.Sublist (ws.vars ++ fileVars.flatten) ∧
      ∀ k, lookupVar k l = lookupVar k (ws.vars ++ fileVars.flatten) := by
  unfold load at h
  cases hmap : resolveAll env ws.varFiles with
  | error e => rw [hmap] at h; exact absurd h (by simp)
  | ok fileVars =>
    rw [hmap] at h
    have hl : l = dedupFirst (ws.vars ++ fileVars.flatten) := by
      injection h with h'
      exact h'.symm
    refine ⟨fileVars, rfl, hl, ?_, ?_⟩
    · rw [hl]; exact dedupFirst_sublist _
    · intro k; rw [hl]; exact lookupVar_dedupFirst k _

/-- Witness for C10 at `wsExample`: the loaded set is the literal `a = 1`
followed by the var-file entry `b = 3`; the var file's later `a = 2`
declaration did not override the earlier literal `a = 1`. -/
theorem c10_load_order_first_wins_witness :
    ∃ fileVars,
      resolveAll envEmpty wsExample.varFiles = .ok fileVars ∧
      [Var.mk "a" "1", Var.mk "b" "3"] = dedupFirst (wsExample.vars ++ fileVars.flatten) ∧
      List.Sublist [Var.mk "a" "1", Var.mk "b" "3"] (wsExample.vars ++ fileVars.flatten) ∧
      ∀ k, lookupVar k [Var.mk "a" "1", Var.mk "b" "3"] =
        lookupVar k (wsExample.vars ++ fileVars.flatten) :=
  c10_load_order_first_wins wsExample envEmpty [Var.mk "a" "1", Var.mk "b" "3"] rfl

/-- Modelled from the spec: the deterministic fingerprint of the desired
spec, the module content/reference plus the resolved vars (missing source:
the workspace controller).  Determinism is immediate because it is a
function of its inputs, and two fingerprints are equal exactly when both
components are equal. -/
structure Fingerprint where
  moduleSrc : String
  resolvedVars : List Var
deriving DecidableEq, Repr

/-- Build the fingerprint from module content/reference and resolved vars. -/
def fingerprint (moduleSrc : String) (vars : List Var) : Fingerprint :=
  ⟨moduleSrc, vars⟩

/-- The persistent per-resource state the reconciler reads and writes:
the workspace directory's module file (`none` when the directory is
absent), the last successfully-applied fingerprint stored in resource
status, and the delete-blocking marker (finalizer). -/
structure MachState where
  dirModule : Option String
  lastApplied : Option Fingerprint
  finalizerSet : Bool
deriving DecidableEq, Repr

/-- Conditions attached to resource status. -/
inductive Cond
  | synced
  | parseFailed
  | phaseFailed (phase : String)
deriving DecidableEq, Repr

/-- What Observe reports about the resource. -/
inductive ObserveReport
  | upToDate
  | needsApply
  | needsDestroy
deriving DecidableEq, Repr

/-- The outcome of a non-mutating Observe: the report, the subcommands
invoked against the external binary, and any conditions emitted. -/
structure ObserveOutcome where
  report : ObserveReport
  invoked : List String
  conditions : List Cond
deriving DecidableEq, Repr

/-- Modelled from the spec: the Observe transition of the
`ReconcileStateMachine` (missing source: the workspace controller).
It computes the fingerprint of the desired spec and compares it against
the last successfully-applied fingerprint in status; when they are equal
and no destroy is pending, it reports up to date and invokes nothing
beyond the lightweight drift check (the plan subcommand); when they
differ it reports needs apply.  It never emits a synced condition. -/
def observe (ws : Workspace) (env : Env) (st : MachState)
    (destroyPending : Bool) : Except Err ObserveOutcome :=
  match load ws env with
  | .error e => .error e
  | .ok vs =>
    if destroyPending then .ok ⟨.needsDestroy, [], []⟩
    else if st.lastApplied = some (fingerprint ws.moduleSrc vs) then
      .ok ⟨.upToDate, ["plan"], []⟩
    else .ok ⟨.needsApply, ["plan"], []⟩

/-- C1: with no destroy pending, Observe reports up to date exactly when
the fingerprint of the desired spec equals the last-applied fingerprint in
status; in that case nothing beyond the lightweight drift check (plan) is
invoked; and changing any resolved var or the module content yields a
different fingerprint, upon which Observe reports needs apply. -/
theorem c1_observe_fingerprint (ws ws' : Workspace) (env : Env)
    (st : MachState) (vs vs' : List Var) (o : ObserveOutcome)
    (hload : load ws env = .ok vs) (hload' : load ws' env = .ok vs')
    (hobs : observe ws env st false = .ok o) :
    (o.report = .upToDate ↔ st.lastApplied = some (fingerprint ws.moduleSrc vs)) ∧
    (st.lastApplied = some (fingerprint ws.moduleSrc vs) →
      ∀ c ∈ o.invoked, c = "plan") ∧
    ((vs ≠ vs' ∨ ws.moduleSrc ≠ ws'.moduleSrc) →
      fingerprint ws.moduleSrc vs ≠ fingerprint ws'.moduleSrc vs' ∧
      ∀ o', observe ws' env
          ⟨st.dirModule, some (fingerprint ws.moduleSrc vs), st.finalizerSet⟩ false =
        .ok o' → o'.report = .needsApply) := by
  unfold observe at hobs
  rw [hload] at hobs
  simp only [if_neg (Bool.false_ne_true)] at hobs
  refine ⟨?_, ?_, ?_⟩
  · by_cases hc : st.lastApplied = some (fingerprint ws.moduleSrc vs)
    · rw [if_pos hc] at hobs
      injection hobs with h'
      rw [← h']
      simp [hc]
    · rw [if_neg hc] at hobs
      injection hobs with h'
      rw [← h']
      simp [hc]
  · intro hc
    rw [if_pos hc] at hobs
    injection hobs with h'
    rw [← h']
    intro c hcm
    simpa using hcm
  · intro hne
    have hfp : fingerprint ws.moduleSrc vs ≠ fingerprint ws'.moduleSrc vs' := by
      intro he
      injection he with h1 h2
      rcases hne with h | h
      · exact h h2
      · exact h h1
    refine ⟨hfp, ?_⟩
    intro o' hobs'
    unfold observe at hobs'
    rw [hload'] at hobs'
    have hcond : ¬ (some (fingerprint ws.moduleSrc vs) =
        some (fingerprint ws'.moduleSrc vs')) := by
      intro he
      exact hfp (Option.some.inj he)
    simp only [if_neg (Bool.false_ne_true)] at hobs'
    rw [if_neg hcond] at hobs'
    injection hobs' with h'
    rw [← h']

/-- The example workspace with the literal var `a` changed from 1 to 9. -/
def wsExampleChanged : Workspace :=
  ⟨"coolbucket", .inlineMode, "module-a",
    [⟨"a", "9"⟩],
    [⟨.literalSrc, [⟨"a", "2"⟩, ⟨"b", "3"⟩], ("", "", "")⟩],
    ("default", "conn")⟩

/-- A status that recorded a successful apply of `wsExample`. -/
def stApplied : MachState :=
  ⟨some "module-a", some (fingerprint "module-a" [⟨"a", "1"⟩, ⟨"b", "3"⟩]), false⟩

/-- Witness for C1 at `wsExample` against `stApplied`: Observe reports up
to date with only the drift check invoked, and changing var `a` changes
the fingerprint and forces needs apply. -/
theorem c1_observe_fingerprint_witness :
    ((ObserveOutcome.mk .upToDate ["plan"] []).report = .upToDate ↔
      stApplied.lastApplied =
        some (fingerprint wsExample.moduleSrc [Var.mk "a" "1", Var.mk "b" "3"])) ∧
    (stApplied.lastApplied =
        some (fingerprint wsExample.moduleSrc [Var.mk "a" "1", Var.mk "b" "3"]) →
      ∀ c ∈ (ObserveOutcome.mk .upToDate ["plan"] []).invoked, c = "plan") ∧
    (([Var.mk "a" "1", Var.mk "b" "3"] ≠ [Var.mk "a" "9", Var.mk "b" "3"] ∨
        wsExample.moduleSrc ≠ wsExampleChanged.moduleSrc) →
      fingerprint wsExample.moduleSrc [Var.mk "a" "1", Var.mk "b" "3"] ≠
        fingerprint wsExampleChanged.moduleSrc [Var.mk "a" "9", Var.mk "b" "3"] ∧
      ∀ o', observe wsExampleChanged envEmpty
          ⟨stApplied.dirModule,
            some (fingerprint wsExample.moduleSrc [Var.mk "a" "1", Var.mk "b" "3"]),
            stApplied.finalizerSet⟩ false = .ok o' →
        o'.report = .needsApply) :=
  c1_observe_fingerprint wsExample wsExampleChanged envEmpty stApplied
    [Var.mk "a" "1", Var.mk "b" "3"] [Var.mk "a" "9", Var.mk "b" "3"]
    (ObserveOutcome.mk .upToDate ["plan"] []) rfl rfl rfl

/-- One extracted output: key, value and sensitivity flag. -/
structure Output where
  key : String
  value : String
  sensitive : Bool
deriving DecidableEq, Repr

/-- The structured stdout report produced by the binary's output command,
as seen by the extractor: either malformed, or a list of parsed entries. -/
inductive Report
  | malformed
  | entries (outs : List Output)
deriving DecidableEq, Repr

/-- The result of output extraction. -/
inductive ExtractResult
  | ok (outs : List Output)
  | parseError
deriving DecidableEq, Repr

/-- Modelled from the spec: `OutputExtractor.extract(stdout)` (missing
source: the workspace controller's output handling).  A malformed or
empty report yields ParseError; otherwise the parsed entries are
returned. -/
def extract : Report → ExtractResult
  | .malformed => .parseError
  | .entries [] => .parseError
  | .entries outs => .ok outs

/-- Modelled from the spec: the data written to the connection
destination — every extracted output, sensitive or not. -/
def connectionData (outs : List Output) : List (String × String) :=
  outs.map (fun o => (o.key, o.value))

/-- Modelled from the spec: the outputs mirrored into resource status —
exactly the non-sensitive ones. -/
def statusData (outs : List Output) : List (String × String) :=
  (outs.filter (fun o => !o.sensitive)).map (fun o => (o.key, o.value))

/-- C6: every extracted output is written to the connection destination,
and a pair appears in the status outputs exactly when a non-sensitive
output with that key and value was extracted; concretely, extracting the
report with a single non-sensitive entry url = https://x puts
url = https://x both into status and into the connection destination. -/
theorem c6_output_mapping (outs : List Output) (k v : String) :
    (∀ o ∈ outs, (o.key, o.value) ∈ connectionData outs) ∧
    ((k, v) ∈ statusData outs ↔
      ∃ o ∈ outs, o.sensitive = false ∧ o.key = k ∧ o.value = v) ∧
    extract (.entries [⟨"url", "https://x", false⟩]) =
      .ok [⟨"url", "https://x", false⟩] ∧
    (statusData [⟨"url", "https://x", false⟩]).lookup "url" = some "https://x" ∧
    (connectionData [⟨"url", "https://x", false⟩]).lookup "url" = some "https://x" := by
  refine ⟨?_, ?_, rfl, rfl, rfl⟩
  · intro o ho
    exact List.mem_map_of_mem _ ho
  · constructor
    · intro hm
      rcases List.mem_map.mp hm with ⟨o, hof, hoe⟩
      rcases List.mem_filter.mp hof with ⟨homem, hosens⟩
      refine ⟨o, homem, ?_, ?_, ?_⟩
      · simpa using hosens
      · exact congrArg Prod.fst hoe
      · exact congrArg Prod.snd hoe
    · intro hex
      rcases hex with ⟨o, homem, hosens, hk, hv⟩
      refine List.mem_map.mpr ⟨o, List.mem_filter.mpr ⟨homem, by simp [hosens]⟩, ?_⟩
      rw [hk, hv]

/-- Witness for C6 with a two-output set containing one sensitive output:
the conclusion instantiated at password lookups. -/
theorem c6_output_mapping_witness :
    (∀ o ∈ [Output.mk "url" "https://x" false, Output.mk "pw" "hunter2" true],
      (o.key, o.value) ∈
        connectionData [Output.mk "url" "https://x" false, Output.mk "pw" "hunter2" true]) ∧
    (("pw", "hunter2") ∈
        statusData [Output.mk "url" "https://x" false, Output.mk "pw" "hunter2" true] ↔
      ∃ o ∈ [Output.mk "url" "https://x" false, Output.mk "pw" "hunter2" true],
        o.sensitive = false ∧ o.key = "pw" ∧ o.value = "hunter2") ∧
    extract (.entries [⟨"url", "https://x", false⟩]) =
      .ok [⟨"url", "https://x", false⟩] ∧
    (statusData [⟨"url", "https://x", false⟩]).lookup "url" = some "https://x" ∧
    (connectionData [⟨"url", "https://x", false⟩]).lookup "url" = some "https://x" :=
  c6_output_mapping [Output.mk "url" "https://x" false, Output.mk "pw" "hunter2" true]
    "pw" "hunter2"

/-- The outcome of the external apply invocation, as seen by the state
machine: a successful apply carrying the stdout report of the output
command, a non-zero exit, a hard kill, or a spawn failure. -/
inductive ApplyOutcome
  | applied (stdout : Report)
  | failed
  | killedA
  | spawnFailedA
deriving DecidableEq, Repr

/-- Everything a Create/Update reconcile produces: the new persistent
state, the subcommands invoked, the emitted conditions, the data written
to the connection destination and to status outputs (none when not
written), and the surfaced error. -/
structure ReconcileOutcome where
  state : MachState
  invoked : List String
  conditions : List Cond
  connWritten : Option (List (String × String))
  statusOutputs : Option (List (String × String))
  err : Option Err
deriving DecidableEq, Repr

/-- Modelled from the spec: the Create/Update transition of the
`ReconcileStateMachine` (missing source: the workspace controller).
It sequences acquire lock → resolve source → load vars → run init →
run apply → extract outputs → persist fingerprint; any step failing
before apply returns with the directory and fingerprint untouched, and a
synced condition is emitted only after apply succeeds.  The results of
the lock, resolve, init and apply steps are inputs because they are
produced by external collaborators. -/
def createOrUpdate (st : MachState) (ws : Workspace) (env : Env)
    (lockOk : Bool) (resolveOk : Bool) (initOk : Bool)
    (applyRes : ApplyOutcome) : ReconcileOutcome :=
  if ¬ lockOk then ⟨st, [], [.phaseFailed "lock"], none, none, some .busy⟩
  else if ¬ resolveOk then
    ⟨st, [], [.phaseFailed "resolve"], none, none, some .resolutionError⟩
  else
    match load ws env with
    | .error _ => ⟨st, [], [.phaseFailed "vars"], none, none, some .resolutionError⟩
    | .ok vs =>
      if ¬ initOk then
        ⟨st, ["init"], [.phaseFailed "init"], none, none, some .applyFailure⟩
      else
        match applyRes with
        | .failed =>
          ⟨st, ["init", "apply"], [.phaseFailed "apply"], none, none, some .applyFailure⟩
        | .killedA =>
          ⟨st, ["init", "apply"], [.phaseFailed "apply"], none, none, some .killedErr⟩
        | .spawnFailedA =>
          ⟨st, ["init"], [.phaseFailed "apply"], none, none, some .spawnErr⟩
        | .applied stdout =>
          match extract stdout with
          | .parseError =>
            ⟨⟨some ws.moduleSrc, some (fingerprint ws.moduleSrc vs), st.finalizerSet⟩,
              ["init", "apply"], [.synced, .parseFailed], none, none, none⟩
          | .ok outs =>
            ⟨⟨some ws.moduleSrc, some (fingerprint ws.moduleSrc vs), st.finalizerSet⟩,
              ["init", "apply"], [.synced],
              some (connectionData outs), some (statusData outs), none⟩

theorem resolveAll_error_of_missing (env : Env) (vfs : List VarFileRef)
    (vf : VarFileRef) (hmem : vf ∈ vfs) (hsrc : vf.source = .secretKey)
    (hmiss : env.secretData.lookup vf.ref = none) :
    ∃ e, resolveAll env vfs = Except.error e := by
  induction vfs with
  | nil => exact absurd hmem (List.not_mem_nil vf)
  | cons v rest ih =>
    rcases List.mem_cons.mp hmem with hv | hv
    · subst hv
      have hres : resolveVarFile env vf = .error .resolutionError := by
        simp [resolveVarFile, hsrc, hmiss]
      exact ⟨.resolutionError, by simp [resolveAll, hres]⟩
    · cases hv' : resolveVarFile env v with
      | error e' => exact ⟨e', by simp [resolveAll, hv']⟩
      | ok a =>
        rcases ih hv with ⟨e, he⟩
        exact ⟨e, by simp [resolveAll, hv', he]⟩

/-- C3: when a step fails before the apply step, no apply or destroy
process is invoked and the workspace directory and stored fingerprint are
left unchanged; in particular a VarFile referencing a missing secret key
makes the VariableLoader return ResolutionError, after which the
reconcile invokes no process at all and leaves the state untouched. -/
theorem c3_prefailure_leaves_state (st : MachState) (ws : Workspace)
    (env env' : Env) (lockOk resolveOk initOk : Bool) (applyRes : ApplyOutcome)
    (lockOk' resolveOk' initOk' : Bool) (applyRes' : ApplyOutcome)
    (vf : VarFileRef) (hmem : vf ∈ ws.varFiles) (hsrc : vf.source = .secretKey)
    (hmiss : env.secretData.lookup vf.ref = none)
    (hpre : lockOk' = false ∨ resolveOk' = false ∨ initOk' = false ∨
      ∃ e, load ws env' = Except.error e) :
    (∃ e, load ws env = Except.error e) ∧
    (createOrUpdate st ws env lockOk resolveOk initOk applyRes).invoked = [] ∧
    (createOrUpdate st ws env lockOk resolveOk initOk applyRes).state = st ∧
    ("apply" ∉ (createOrUpdate st ws env' lockOk' resolveOk' initOk' applyRes').invoked ∧
      "destroy" ∉ (createOrUpdate st ws env' lockOk' resolveOk' initOk' applyRes').invoked ∧
      (createOrUpdate st ws env' lockOk' resolveOk' initOk' applyRes').state = st) := by
  have hload : ∃ e, load ws env = Except.error e := by
    rcases resolveAll_error_of_missing env ws.varFiles vf hmem hsrc hmiss with ⟨e, he⟩
    exact ⟨e, by simp [load, he]⟩
  rcases hload with ⟨e, he⟩
  refine ⟨⟨e, he⟩, ?_, ?_, ?_⟩
  · cases lockOk with
    | false => simp [createOrUpdate]
    | true =>
      cases resolveOk with
      | false => simp [createOrUpdate]
      | true => simp [createOrUpdate, he]
  · cases lockOk with
    | false => simp [createOrUpdate]
    | true =>
      cases resolveOk with
      | false => simp [createOrUpdate]
      | true => simp [createOrUpdate, he]
  · rcases hpre with h | h | h | h
    · subst h; simp [createOrUpdate]
    · subst h
      cases lockOk' with
      | false => simp [createOrUpdate]
      | true => simp [createOrUpdate]
    · subst h
      cases lockOk' with
      | false => simp [createOrUpdate]
      | true =>
        cases resolveOk' with
        | false => simp [createOrUpdate]
        | true =>
          cases hld : load ws env' with
          | error e' => simp [createOrUpdate, hld]
          | ok vs => simp [createOrUpdate, hld]
    · rcases h with ⟨e', he'⟩
      cases lockOk' with
      | false => simp [createOrUpdate]
      | true =>
        cases resolveOk' with
        | false => simp [createOrUpdate]
        | true => simp [createOrUpdate, he']

/-- An environment whose only secret entry is unrelated to what
`wsWithSecret` references. -/
def envMissingSecret : Env :=
  ⟨[], [(("default", "other-secret", "k"), [⟨"z", "0"⟩])]⟩

/-- A workspace whose var file references secret key
(default, terraform, example.tfvar.json), absent from `envMissingSecret`. -/
def wsWithSecret : Workspace :=
  ⟨"myworkspace", .remoteMode, "https://github.com/crossplane/tf",
    [⟨"region", "us-west-1"⟩],
    [⟨.secretKey, [], ("default", "terraform", "example.tfvar.json")⟩],
    ("default", "conn")⟩

/-- Witness for C3 at `wsWithSecret` against `envMissingSecret`: the load
fails with ResolutionError and the reconcile leaves `stApplied` unchanged
with nothing invoked; an init failure against an intact environment also
invokes no apply and keeps the state. -/
theorem c3_prefailure_leaves_state_witness :
    (∃ e, load wsWithSecret envMissingSecret = Except.error e) ∧
    (createOrUpdate stApplied wsWithSecret envMissingSecret true true true
      (.applied .malformed)).invoked = [] ∧
    (createOrUpdate stApplied wsWithSecret envMissingSecret true true true
      (.applied .malformed)).state = stApplied ∧
    ("apply" ∉ (createOrUpdate stApplied wsWithSecret envMissingSecret true true false
        (.applied .malformed)).invoked ∧
      "destroy" ∉ (createOrUpdate stApplied wsWithSecret envMissingSecret true true false
        (.applied .malformed)).invoked ∧
      (createOrUpdate stApplied wsWithSecret envMissingSecret true true false
        (.applied .malformed)).state = stApplied) :=
  c3_prefailure_leaves_state stApplied wsWithSecret envMissingSecret envMissingSecret
    true true true (.applied .malformed) true true false (.applied .malformed)
    ⟨.secretKey, [], ("default", "terraform", "example.tfvar.json")⟩
    (by decide) rfl rfl (Or.inr (Or.inr (Or.inl rfl)))

/-- C4: a synced condition is emitted by Create/Update exactly when every
step up to and including apply succeeded — a successful init (or any
earlier partial success) with a failed, killed or unspawnable apply never
yields synced — and Observe never emits synced at all, so neither a
successful init nor a successful plan reports the resource as synced. -/
theorem c4_synced_only_after_apply (st : MachState) (ws : Workspace) (env : Env)
    (lockOk resolveOk initOk : Bool) (applyRes : ApplyOutcome) :
    (Cond.synced ∈ (createOrUpdate st ws env lockOk resolveOk initOk applyRes).conditions ↔
      (lockOk = true ∧ resolveOk = true ∧ (∃ vs, load ws env = Except.ok vs) ∧
        initOk = true ∧ ∃ r, applyRes = .applied r)) ∧
    (∀ dp o, observe ws env st dp = .ok o → Cond.synced ∉ o.conditions) := by
  constructor
  · cases lockOk with
    | false => simp [createOrUpdate]
    | true =>
      cases resolveOk with
      | false => simp [createOrUpdate]
      | true =>
        cases hld : load ws env with
        | error e => simp [createOrUpdate, hld]
        | ok vs =>
          cases initOk with
          | false => simp [createOrUpdate, hld]
          | true =>
            cases applyRes with
            | failed => simp [createOrUpdate, hld]
            | killedA => simp [createOrUpdate, hld]
            | spawnFailedA => simp [createOrUpdate, hld]
            | applied stdout =>
              cases hex : extract stdout with
              | parseError => simp [createOrUpdate, hld, hex]
              | ok outs => simp [createOrUpdate, hld, hex]
  · intro dp o hobs
    unfold observe at hobs
    cases hld : load ws env with
    | error e => rw [hld] at hobs; exact absurd hobs (by simp)
    | ok vs =>
      rw [hld] at hobs
      cases dp with
      | true =>
        simp only [if_pos rfl] at hobs
        injection hobs with h'
        rw [← h']
        simp
      | false =>
        simp only [if_neg (Bool.false_ne_true)] at hobs
        by_cases hc : st.lastApplied = some (fingerprint ws.moduleSrc vs)
        · rw [if_pos hc] at hobs
          injection hobs with h'
          rw [← h']
          simp
        · rw [if_neg hc] at hobs
          injection hobs with h'
          rw [← h']
          simp

/-- Witness for C4: with `wsExample`, init succeeding but apply failing
yields no synced condition (the iff instantiated), and the up-to-date
Observe outcome carries no synced condition. -/
theorem c4_synced_only_after_apply_witness :
    (Cond.synced ∈ (createOrUpdate stApplied wsExample envEmpty true true true
        .failed).conditions ↔
      (true = true ∧ true = true ∧ (∃ vs, load wsExample envEmpty = Except.ok vs) ∧
        true = true ∧ ∃ r, ApplyOutcome.failed = .applied r)) ∧
    (∀ dp o, observe wsExample envEmpty stApplied dp = .ok o →
      Cond.synced ∉ o.conditions) :=
  c4_synced_only_after_apply stApplied wsExample envEmpty true true true .failed

/-- C9: a malformed or empty stdout report yields ParseError from the
extractor, but after a successful apply the state machine still persists
the applied fingerprint, writes the module into the workspace directory
and emits the synced condition; the parse failure appears only as a
secondary condition alongside synced, with no blocking error surfaced. -/
theorem c9_parse_error_keeps_applied (st : MachState) (ws : Workspace)
    (env : Env) (vs : List Var) (stdout : Report)
    (hload : load ws env = Except.ok vs)
    (hbad : extract stdout = .parseError) :
    extract .malformed = .parseError ∧
    extract (.entries []) = .parseError ∧
    (createOrUpdate st ws env true true true (.applied stdout)).state.lastApplied =
      some (fingerprint ws.moduleSrc vs) ∧
    (createOrUpdate st ws env true true true (.applied stdout)).state.dirModule =
      some ws.moduleSrc ∧
    Cond.synced ∈ (createOrUpdate st ws env true true true (.applied stdout)).conditions ∧
    Cond.parseFailed ∈
      (createOrUpdate st ws env true true true (.applied stdout)).conditions ∧
    (createOrUpdate st ws env true true true (.applied stdout)).err = none := by
  refine ⟨rfl, rfl, ?_, ?_, ?_, ?_, ?_⟩ <;>
    simp [createOrUpdate, hload, hbad]

/-- Witness for C9 at `wsExample` with a malformed report: the applied
fingerprint is persisted and synced plus parse-failed conditions are
emitted. -/
theorem c9_parse_error_keeps_applied_witness :
    extract .malformed = .parseError ∧
    extract (.entries []) = .parseError ∧
    (createOrUpdate stApplied wsExample envEmpty true true true
      (.applied .malformed)).state.lastApplied =
      some (fingerprint wsExample.moduleSrc [Var.mk "a" "1", Var.mk "b" "3"]) ∧
    (createOrUpdate stApplied wsExample envEmpty true true true
      (.applied .malformed)).state.dirModule = some wsExample.moduleSrc ∧
    Cond.synced ∈ (createOrUpdate stApplied wsExample envEmpty true true true
      (.applied .malformed)).conditions ∧
    Cond.parseFailed ∈ (createOrUpdate stApplied wsExample envEmpty true true true
      (.applied .malformed)).conditions ∧
    (createOrUpdate stApplied wsExample envEmpty true true true
      (.applied .malformed)).err = none :=
  c9_parse_error_keeps_applied stApplied wsExample envEmpty
    [Var.mk "a" "1", Var.mk "b" "3"] .malformed rfl rfl

/-- The outcome of a Delete reconcile. -/
structure DeleteOutcome where
  state : MachState
  invoked : List String
  err : Option Err
deriving DecidableEq, Repr

/-- Modelled from the spec: the Delete transition of the
`ReconcileStateMachine` (missing source: the workspace controller).
Acquire the lock, run destroy; on success delete the WorkspaceDirectory
and clear the finalizer; on failure leave the finalizer set so the
resource cannot be removed. -/
def deleteReconcile (st : MachState) (lockOk : Bool) (destroyOk : Bool) :
    DeleteOutcome :=
  if ¬ lockOk then ⟨st, [], some .busy⟩
  else if destroyOk then ⟨⟨none, st.lastApplied, false⟩, ["destroy"], none⟩
  else ⟨st, ["destroy"], some .destroyFailure⟩

/-- A resource can be removed only once its delete-blocking marker
(finalizer) is cleared. -/
def removable (st : MachState) : Bool := ! st.finalizerSet

/-- Run a sequence of Delete reconciles; each element gives the lock and
destroy results of one reconcile. -/
def runDeleteSeq : List (Bool × Bool) → MachState → MachState
  | [], st => st
  | p :: rest, st => runDeleteSeq rest (deleteReconcile st p.1 p.2).state

/-- C7: a successful destroy removes the WorkspaceDirectory and clears
the delete-blocking marker, making the resource removable; a failed
destroy leaves the marker set; and across any sequence of reconciles in
which no destroy succeeds the marker stays set, so the resource cannot
be removed until a destroy eventually succeeds. -/
theorem c7_destroy_finalizer (st : MachState) (seq : List (Bool × Bool))
    (hfin : st.finalizerSet = true)
    (hfail : ∀ p ∈ seq, p.1 = false ∨ p.2 = false) :
    ((deleteReconcile st true true).state.dirModule = none ∧
      (deleteReconcile st true true).state.finalizerSet = false ∧
      removable (deleteReconcile st true true).state = true) ∧
    ((deleteReconcile st true false).state.finalizerSet = true ∧
      removable (deleteReconcile st true false).state = false) ∧
    ((runDeleteSeq seq st).finalizerSet = true ∧
      removable (runDeleteSeq seq st) = false) := by
  refine ⟨⟨rfl, rfl, rfl⟩, ⟨by simpa [deleteReconcile] using hfin,
    by simp [deleteReconcile, removable, hfin]⟩, ?_⟩
  have hrun : (runDeleteSeq seq st).finalizerSet = true := by
    induction seq generalizing st with
    | nil => exact hfin
    | cons p rest ih =>
      have hp := hfail p (List.mem_cons_self p rest)
      have hrest : ∀ q ∈ rest, q.1 = false ∨ q.2 = false :=
        fun q hq => hfail q (List.mem_cons_of_mem p hq)
      rcases hp with h1 | h2
      · have hstate : (deleteReconcile st p.1 p.2).state = st := by
          simp [deleteReconcile, h1]
        simpa [runDeleteSeq, hstate] using ih st hfin hrest
      · cases hl : p.1 with
        | false =>
          have hstate : (deleteReconcile st p.1 p.2).state = st := by
            simp [deleteReconcile, hl]
          simpa [runDeleteSeq, hstate] using ih st hfin hrest
        | true =>
          have hstate : (deleteReconcile st p.1 p.2).state = st := by
            simp [deleteReconcile, hl, h2]
          simpa [runDeleteSeq, hstate] using ih st hfin hrest
  exact ⟨hrun, by simp [removable, hrun]⟩

/-- Witness for C7: a deleting resource with the finalizer set survives a
lock-busy reconcile and two failed destroys with the finalizer still set,
while a successful destroy removes the directory and clears it. -/
theorem c7_destroy_finalizer_witness :
    ((deleteReconcile ⟨some "module-a", none, true⟩ true true).state.dirModule = none ∧
      (deleteReconcile ⟨some "module-a", none, true⟩ true true).state.finalizerSet = false ∧
      removable (deleteReconcile ⟨some "module-a", none, true⟩ true true).state = true) ∧
    ((deleteReconcile ⟨some "module-a", none, true⟩ true false).state.finalizerSet = true ∧
      removable (deleteReconcile ⟨some "module-a", none, true⟩ true false).state = false) ∧
    ((runDeleteSeq [(false, true), (true, false), (true, false)]
        ⟨some "module-a", none, true⟩).finalizerSet = true ∧
      removable (runDeleteSeq [(false, true), (true, false), (true, false)]
        ⟨some "module-a", none, true⟩) = false) :=
  c7_destroy_finalizer ⟨some "module-a", none, true⟩
    [(false, true), (true, false), (true, false)] rfl (by decide)

/-- From `cmd/provider/main.go`: the default of the timeout flag, "20m",
which controls how long processes may run before they are killed,
expressed in seconds. -/
def defaultTimeoutSeconds : Nat := 20 * 60

/-- A spawned external process: the top-level pid and the pids of the
helper child processes it spawned (the process tree below it). -/
structure Proc where
  topPid : Nat
  childPids : List Nat
deriving DecidableEq, Repr

/-- The whole process tree of a spawned process. -/
def processTree (p : Proc) : List Nat := p.topPid :: p.childPids

/-- The result of one process invocation. -/
inductive RunResult
  | completed (exitCode : Nat)
  | killedRes
  | spawnErrorRes
deriving DecidableEq, Repr

/-- The outcome of `ProcessRunner.run`: the result and the pids the
runner terminated on the way out. -/
structure RunOutcome where
  result : RunResult
  terminated : List Nat
deriving DecidableEq, Repr

/-- Modelled from the spec: `ProcessRunner.run` (missing source: the
terraform process harness).  Wall-clock time is modelled by the run's
duration in seconds; a failed spawn yields SpawnError; expiry of the
deadline — the configured timeout, or an earlier external cancellation,
both resolving to the same termination path — kills the entire process
tree rather than only the top-level process and returns Killed; otherwise
the run completes with its exit code.  The function is total, so a
timed-out run returns rather than hanging. -/
def run (p : Option Proc) (durationSec : Nat) (exitCode : Nat)
    (timeoutSec : Nat) (cancelAtSec : Option Nat) : RunOutcome :=
  match p with
  | none => ⟨.spawnErrorRes, []⟩
  | some proc =>
    let deadline :=
      match cancelAtSec with
      | none => timeoutSec
      | some c => min timeoutSec c
    if deadline < durationSec then ⟨.killedRes, processTree proc⟩
    else ⟨.completed exitCode, []⟩

/-- C5: the default deadline from main.go is 20 minutes; a run exceeding
the configured timeout returns Killed with the entire process tree — the
top-level pid and every helper child pid — terminated, and an external
cancellation that fires before completion takes the same termination
path. -/
theorem c5_timeout_kills_process_tree (proc : Proc) (d ec t c : Nat)
    (htimeout : t < d) (hcancel : c < d) :
    defaultTimeoutSeconds = 20 * 60 ∧
    run (some proc) d ec t none = ⟨.killedRes, processTree proc⟩ ∧
    (proc.topPid ∈ (run (some proc) d ec t none).terminated ∧
      ∀ pid ∈ proc.childPids, pid ∈ (run (some proc) d ec t none).terminated) ∧
    run (some proc) d ec t (some c) = ⟨.killedRes, processTree proc⟩ := by
  have hrun : run (some proc) d ec t none = ⟨.killedRes, processTree proc⟩ := by
    simp [run, htimeout]
  have hdead : min t c < d := Nat.lt_of_le_of_lt (Nat.min_le_right t c) hcancel
  refine ⟨rfl, hrun, ?_, by simp [run, hdead]⟩
  rw [hrun]
  exact ⟨List.mem_cons_self _ _, fun pid hp => List.mem_cons_of_mem _ hp⟩

/-- Witness for C5: a run lasting 1201 seconds against the default
20-minute timeout is killed with its full process tree of three pids
terminated, also when cancelled at second 100. -/
theorem c5_timeout_kills_process_tree_witness :
    defaultTimeoutSeconds = 20 * 60 ∧
    run (some ⟨1, [2, 3]⟩) 1201 0 defaultTimeoutSeconds none =
      ⟨.killedRes, processTree ⟨1, [2, 3]⟩⟩ ∧
    ((Proc.mk 1 [2, 3]).topPid ∈
        (run (some ⟨1, [2, 3]⟩) 1201 0 defaultTimeoutSeconds none).terminated ∧
      ∀ pid ∈ (Proc.mk 1 [2, 3]).childPids, pid ∈
        (run (some ⟨1, [2, 3]⟩) 1201 0 defaultTimeoutSeconds none).terminated) ∧
    run (some ⟨1, [2, 3]⟩) 1201 0 defaultTimeoutSeconds (some 100) =
      ⟨.killedRes, processTree ⟨1, [2, 3]⟩⟩ :=
  c5_timeout_kills_process_tree ⟨1, [2, 3]⟩ 1201 0 defaultTimeoutSeconds 100
    (by decide) (by decide)

end ProviderTerraform
